import Mathlib

/-!
Verification of the conversational quiz-generation orchestrator
(`flashcards` Go backend).  The Go services are shallowly embedded:
strings are Lean `String`s viewed as lists of characters (the inputs of
interest are ASCII, so Go byte indices coincide with character indices),
the note repository and the generative-model client are explicit
functional parameters, and the wall clock is an explicit `now` argument
(the Unix-seconds value that `time.Now().Unix()` would return).
Go runtime panics (out-of-range string slicing) are a distinguished
outcome, separate from returned errors.
-/

/-- Outcome of running an embedded Go computation: a runtime panic, a
returned error (its message), or a returned value. -/
inductive Res (α : Type) where
  | panics : Res α
  | fails (msg : String) : Res α
  | ok (a : α) : Res α
  deriving DecidableEq, Repr

/-- Embedding of `models.Note` (only the fields the quiz pipeline reads). -/
structure Note where
  ID : Int
  Content : String
  deriving DecidableEq, Repr

/-- Embedding of `models.QuestionData`. -/
structure QuestionData where
  id : String
  text : String
  type : String
  options : List String
  correctAnswer : String
  explanation : String
  difficulty : String
  basedOnNotes : List Int
  deriving DecidableEq, Repr

/-- Embedding of `models.Message`. -/
structure Message where
  Role : String
  Content : String
  Question : Option QuestionData
  deriving DecidableEq, Repr

/-- The note repository collaborator (`db.NoteRepository`): a keyed
lookup and a fetch-all operation, each possibly failing. -/
structure NoteRepo where
  getById : Int → Except String Note
  getAllNotes : Except String (List Note)

/-- ASCII lowering of one character; model of `strings.ToLower`
restricted to the ASCII range (all keywords involved are ASCII). -/
def asciiLower (c : Char) : Char :=
  if 'A' ≤ c ∧ c ≤ 'Z' then Char.ofNat (c.toNat + 32) else c

/-- Lowercase a string character-wise. -/
def strLower (s : String) : String :=
  String.mk (s.data.map asciiLower)

/-- One character list is a prefix of another. -/
def listPrefixOf : List Char → List Char → Bool
  | [], _ => true
  | _ :: _, [] => false
  | a :: as, b :: bs => (a = b) && listPrefixOf as bs

/-- The first character list occurs contiguously inside the second. -/
def listSubOf (sub : List Char) : List Char → Bool
  | [] => sub.isEmpty
  | c :: rest => listPrefixOf sub (c :: rest) || listSubOf sub rest

/-- Model of `strings.Contains s sub`: `sub` occurs as a contiguous
substring of `s`. -/
def strContains (s sub : String) : Bool :=
  listSubOf sub.data s.data

/-- Embedding of `QuizService.containsKeywords`: lowercases the text and
each keyword and tests substring containment. -/
def containsKeywords (text : String) (keywords : List String) : Bool :=
  keywords.any (fun k => strContains (strLower text) (strLower k))

/-- Embedding of `QuizService.extractDifficulty`. -/
def extractDifficulty (message : String) : String :=
  if containsKeywords message ["easy", "simple", "basic", "beginner"] then "easy"
  else if containsKeywords message ["hard", "difficult", "challenging", "advanced"] then "hard"
  else "medium"

/-- Embedding of `QuizService.extractQuestionType`. -/
def extractQuestionType (message : String) : String :=
  if containsKeywords message ["essay", "explain", "describe", "discuss"] then "essay"
  else if containsKeywords message ["true", "false", "yes", "no"] then "true-false"
  else "multiple-choice"

/-- Spec-side matching predicate, written from the words of the claim: the
lowercased text contains the (already lowercase) keyword as a substring. -/
def specMatchesAny (text : String) (keywords : List String) : Bool :=
  keywords.any (fun k => strContains (strLower text) k)

theorem containsKeywords_eq_specMatchesAny (text : String) :
    ∀ ks : List String, (∀ k ∈ ks, strLower k = k) →
      containsKeywords text ks = specMatchesAny text ks := by
  intro ks h
  induction ks with
  | nil => rfl
  | cons k rest ih =>
      simp only [containsKeywords, specMatchesAny, List.any_cons] at *
      rw [h k (List.mem_cons_self k rest)]
      have := ih (fun x hx => h x (List.mem_cons_of_mem k hx))
      simp only [containsKeywords, specMatchesAny] at this
      rw [this]

/-- C6: parameter-inference keyword priority.  Difficulty is easy when an
easy-keyword occurs (even if a hard-keyword also occurs), else hard when a
hard-keyword occurs, else medium; question type is essay when an
essay-keyword occurs (even if a true/false-keyword also occurs), else
true-false when a true/false-keyword occurs, else multiple-choice; all
matching is case-insensitive substring matching. -/
theorem extract_parameters_keyword_priority (message : String) :
    extractDifficulty message =
      (if specMatchesAny message ["easy", "simple", "basic", "beginner"] then "easy"
       else if specMatchesAny message ["hard", "difficult", "challenging", "advanced"] then "hard"
       else "medium") ∧
    extractQuestionType message =
      (if specMatchesAny message ["essay", "explain", "describe", "discuss"] then "essay"
       else if specMatchesAny message ["true", "false", "yes", "no"] then "true-false"
       else "multiple-choice") := by
  constructor
  · rw [extractDifficulty,
      containsKeywords_eq_specMatchesAny message ["easy", "simple", "basic", "beginner"] (by decide),
      containsKeywords_eq_specMatchesAny message ["hard", "difficult", "challenging", "advanced"] (by decide)]
  · rw [extractQuestionType,
      containsKeywords_eq_specMatchesAny message ["essay", "explain", "describe", "discuss"] (by decide),
      containsKeywords_eq_specMatchesAny message ["true", "false", "yes", "no"] (by decide)]

/-- Embedding of `NoteService.GetNoteByID`: rejects non-positive ids
before touching the repository, otherwise delegates to the repository. -/
def serviceGetNoteByID (repo : NoteRepo) (id : Int) : Except String Note :=
  if id ≤ 0 then Except.error ("invalid note ID: " ++ toString id)
  else repo.getById id

/-- Embedding of `NoteService.GetAllNotes`: delegates, wrapping failures. -/
def serviceGetAllNotes (repo : NoteRepo) : Except String (List Note) :=
  match repo.getAllNotes with
  | Except.error e => Except.error ("failed to get notes: " ++ e)
  | Except.ok ns => Except.ok ns

/-- Successful resolution of one note id, as the aggregation loop sees it. -/
def resolveNote (repo : NoteRepo) (id : Int) : Option Note :=
  match serviceGetNoteByID repo id with
  | Except.error _ => none
  | Except.ok n => some n

/-- The notes collected by the aggregation loop of
`QuizService.getNotesContent`: per-id failures are skipped, surviving
notes keep input order (duplicates included). -/
def resolvedNotes (repo : NoteRepo) (noteIds : List Int) : List Note :=
  noteIds.filterMap (resolveNote repo)

/-- One entry of the grounding text: `fmt.Sprintf("Note %d: %s", ...)`. -/
def noteEntry (n : Note) : String :=
  "Note " ++ toString n.ID ++ ": " ++ n.Content

/-- The separator written between consecutive entries. -/
def noteSeparator : String := "\n\n---\n\n"

/-- The content-building loop of `getNotesContent`: the separator is
written before every entry except the first. -/
def combineNotes (notes : List Note) : String :=
  String.intercalate noteSeparator (notes.map noteEntry)

/-- Embedding of `QuizService.getNotesContent`. -/
def getNotesContent (repo : NoteRepo) (noteIds : List Int) : Res String :=
  match noteIds with
  | [] =>
      match serviceGetAllNotes repo with
      | Except.error e => Res.fails e
      | Except.ok notes =>
          if notes.isEmpty then Res.fails "no notes found"
          else Res.ok (combineNotes notes)
  | _ :: _ =>
      if (resolvedNotes repo noteIds).isEmpty then Res.fails "no notes found"
      else Res.ok (combineNotes (resolvedNotes repo noteIds))

/-- C5: partial-failure policy of content aggregation.  A non-empty id
list with at least one resolving id succeeds with the resolved subset
concatenated in input order; a non-empty id list where every id fails
yields the error `no notes found`, as does an empty id list over an
empty repository. -/
theorem getNotesContent_partial_failure (repo : NoteRepo) (noteIds : List Int) :
    (noteIds ≠ [] → resolvedNotes repo noteIds ≠ [] →
      getNotesContent repo noteIds = Res.ok (combineNotes (resolvedNotes repo noteIds))) ∧
    (noteIds ≠ [] → resolvedNotes repo noteIds = [] →
      getNotesContent repo noteIds = Res.fails "no notes found") ∧
    (noteIds = [] → serviceGetAllNotes repo = Except.ok [] →
      getNotesContent repo noteIds = Res.fails "no notes found") := by
  refine ⟨?_, ?_, ?_⟩
  · intro hne hres
    match noteIds with
    | [] => exact absurd rfl hne
    | i :: rest =>
        match h : resolvedNotes repo (i :: rest) with
        | [] => exact absurd h hres
        | n :: ns =>
            simp only [getNotesContent, h, List.isEmpty_cons, Bool.false_eq_true, if_false]
  · intro hne hres
    match noteIds with
    | [] => exact absurd rfl hne
    | i :: rest => simp only [getNotesContent, hres, List.isEmpty_nil, if_true]
  · intro hnil hall
    subst hnil
    simp only [getNotesContent, hall, List.isEmpty_nil, if_true]

lemma getNotesContent_ok_of_resolved (repo : NoteRepo) (noteIds : List Int)
    (hne : noteIds ≠ []) (hres : resolvedNotes repo noteIds ≠ []) :
    getNotesContent repo noteIds = Res.ok (combineNotes (resolvedNotes repo noteIds)) := by
  match noteIds with
  | [] => exact absurd rfl hne
  | i :: rest =>
      match h : resolvedNotes repo (i :: rest) with
      | [] => exact absurd h hres
      | n :: ns =>
          simp only [getNotesContent, h, List.isEmpty_cons, Bool.false_eq_true, if_false]

lemma resolveNote_nonpos (repo : NoteRepo) (id : Int) (h : id ≤ 0) :
    resolveNote repo id = none := by
  unfold resolveNote serviceGetNoteByID
  rw [if_pos h]

lemma resolvedNotes_filter_pos (repo : NoteRepo) (noteIds : List Int) :
    resolvedNotes repo noteIds =
      resolvedNotes repo (noteIds.filter (fun i => decide (0 < i))) := by
  induction noteIds with
  | nil => rfl
  | cons i rest ih =>
      cases hp : decide (0 < i) with
      | true =>
          have hfil : List.filter (fun j => decide (0 < j)) (i :: rest) =
              i :: List.filter (fun j => decide (0 < j)) rest := by
            simp [List.filter_cons, hp]
          rw [hfil]
          simp only [resolvedNotes, List.filterMap_cons] at *
          rw [ih]
      | false =>
          have hle : i ≤ 0 := by
            have := of_decide_eq_false hp
            omega
          have hfil : List.filter (fun j => decide (0 < j)) (i :: rest) =
              List.filter (fun j => decide (0 < j)) rest := by
            simp [List.filter_cons, hp]
          rw [hfil]
          simp only [resolvedNotes, List.filterMap_cons,
            resolveNote_nonpos repo i hle] at *
          rw [ih]

lemma count_le_count_filterMap (f : Int → Option Note) (id : Int) (n : Note)
    (h : f id = some n) (l : List Int) :
    l.count id ≤ (l.filterMap f).count n := by
  induction l with
  | nil => simp
  | cons a rest ih =>
      by_cases ha : a = id
      · subst ha
        rw [List.filterMap_cons, h]
        simp only [List.count_cons, beq_self_eq_true, if_true]
        omega
      · rw [List.filterMap_cons]
        have hcnt : (a :: rest).count id = rest.count id := by
          simp [List.count_cons, ha]
        rw [hcnt]
        cases hf : f a with
        | none => exact ih
        | some b =>
            refine le_trans ih ?_
            simp only [List.count_cons]
            omega

lemma count_map_ge (f : Note → String) (a : Note) (l : List Note) :
    l.count a ≤ (l.map f).count (f a) := by
  induction l with
  | nil => simp
  | cons b rest ih =>
      by_cases hb : b = a
      · subst hb
        simp only [List.map_cons, List.count_cons, beq_self_eq_true, if_true]
        omega
      · simp only [List.map_cons, List.count_cons]
        have h1 : (b == a) = false := by simp [hb]
        rw [h1]
        simp only [Bool.false_eq_true, if_false]
        by_cases h2 : f b = f a
        · rw [h2]
          simp only [beq_self_eq_true, if_true]
          omega
        · have h3 : (f b == f a) = false := by simp [h2]
          rw [h3]
          simpa using ih

/-- C9: the identifier list is not deduplicated.  Whenever aggregation
runs over a non-empty list containing a resolvable id, its output is the
entry strings of all resolved occurrences (in input order) joined by the
separator line, and the entry of a note resolved from an id occurring k
times occurs at least k times among those entries. -/
theorem getNotesContent_keeps_duplicates (repo : NoteRepo) (noteIds : List Int)
    (id : Int) (n : Note) (hmem : id ∈ noteIds) (hres : resolveNote repo id = some n) :
    getNotesContent repo noteIds =
      Res.ok (String.intercalate noteSeparator ((resolvedNotes repo noteIds).map noteEntry)) ∧
    noteIds.count id ≤ ((resolvedNotes repo noteIds).map noteEntry).count (noteEntry n) := by
  have hne : noteIds ≠ [] := List.ne_nil_of_mem hmem
  have hmemres : n ∈ resolvedNotes repo noteIds := by
    exact List.mem_filterMap.mpr ⟨id, hmem, hres⟩
  have hresne : resolvedNotes repo noteIds ≠ [] := List.ne_nil_of_mem hmemres
  refine ⟨getNotesContent_ok_of_resolved repo noteIds hne hresne, ?_⟩
  exact le_trans (count_le_count_filterMap (resolveNote repo) id n hres noteIds)
    (count_map_ge noteEntry n (resolvedNotes repo noteIds))

/-- C10: non-positive note ids are rejected by the note service before
the repository is consulted (the result is the `invalid note ID` error
for every repository), and during aggregation they contribute nothing:
the resolved notes equal those of the list with non-positive ids
filtered out. -/
theorem nonpositive_ids_rejected_and_skipped (repo : NoteRepo) (id : Int)
    (noteIds : List Int) :
    (id ≤ 0 → serviceGetNoteByID repo id =
      Except.error ("invalid note ID: " ++ toString id)) ∧
    resolvedNotes repo noteIds =
      resolvedNotes repo (noteIds.filter (fun i => decide (0 < i))) := by
  constructor
  · intro h
    unfold serviceGetNoteByID
    rw [if_pos h]
  · exact resolvedNotes_filter_pos repo noteIds

/-- A concrete repository used to exercise the theorems: notes 1 and 2
exist, every other id is absent, and the repository as a whole is empty
for the fetch-all operation (the stored table has no rows). -/
def demoRepo : NoteRepo where
  getById := fun i =>
    if i = 1 then Except.ok ⟨1, "alpha"⟩
    else if i = 2 then Except.ok ⟨2, "beta"⟩
    else Except.error "note not found"
  getAllNotes := Except.ok []

theorem getNotesContent_partial_failure_witness :
    getNotesContent demoRepo [1, 3] = Res.ok "Note 1: alpha" ∧
    getNotesContent demoRepo [3] = Res.fails "no notes found" ∧
    getNotesContent demoRepo [] = Res.fails "no notes found" := by
  have h := getNotesContent_partial_failure demoRepo [1, 3]
  have h2 := getNotesContent_partial_failure demoRepo [3]
  have h3 := getNotesContent_partial_failure demoRepo []
  exact ⟨(h.1 (by decide) (by decide)).trans (by decide),
    h2.2.1 (by decide) (by decide), h3.2.2 rfl rfl⟩

theorem getNotesContent_keeps_duplicates_witness :
    getNotesContent demoRepo [1, 2, 1] =
      Res.ok "Note 1: alpha\n\n---\n\nNote 2: beta\n\n---\n\nNote 1: alpha" ∧
    2 ≤ ((resolvedNotes demoRepo [1, 2, 1]).map noteEntry).count (noteEntry ⟨1, "alpha"⟩) := by
  have h := getNotesContent_keeps_duplicates demoRepo [1, 2, 1] 1 ⟨1, "alpha"⟩
    (by decide) (by decide)
  exact ⟨h.1.trans (by decide), le_trans (by decide) h.2⟩

theorem nonpositive_ids_rejected_and_skipped_witness :
    serviceGetNoteByID demoRepo (-1) = Except.error "invalid note ID: -1" ∧
    resolvedNotes demoRepo [1, -1, 0, 2] =
      resolvedNotes demoRepo ([1, -1, 0, 2].filter (fun i => decide (0 < i))) := by
  have h := nonpositive_ids_rejected_and_skipped demoRepo (-1) [1, -1, 0, 2]
  exact ⟨(h.1 (by decide)).trans rfl, h.2⟩

/-- JSON whitespace. -/
def isJsonWs (c : Char) : Bool :=
  c = ' ' || c = '\t' || c = '\n' || c = '\r'

/-- Drop leading JSON whitespace. -/
def skipWs (cs : List Char) : List Char := cs.dropWhile isJsonWs

/-- Body of a JSON string literal: consumes characters up to the closing
quote, handling the common escapes. -/
def parseJStringAux : List Char → List Char → Option (String × List Char)
  | _, [] => none
  | acc, '"' :: rest => some (String.mk acc.reverse, rest)
  | acc, '\\' :: rest =>
      match rest with
      | [] => none
      | d :: rest2 =>
          match d with
          | '"' => parseJStringAux ('"' :: acc) rest2
          | '\\' => parseJStringAux ('\\' :: acc) rest2
          | '/' => parseJStringAux ('/' :: acc) rest2
          | 'n' => parseJStringAux ('\n' :: acc) rest2
          | 't' => parseJStringAux ('\t' :: acc) rest2
          | 'r' => parseJStringAux ('\r' :: acc) rest2
          | _ => none
  | acc, c :: rest => parseJStringAux (c :: acc) rest

/-- A JSON string literal starting at the opening quote. -/
def parseJString : List Char → Option (String × List Char)
  | '"' :: rest => parseJStringAux [] rest
  | _ => none

/-- Characters that may continue a JSON number token. -/
def isNumChar (c : Char) : Bool :=
  c.isDigit || c = '-' || c = '+' || c = '.' || c = 'e' || c = 'E'

/-- A decoded JSON value, restricted to the shapes the target record can
receive: strings, arrays of strings, and skippable scalars. -/
inductive JVal where
  | str (s : String)
  | arr (xs : List String)
  | num
  | boolean (b : Bool)
  | null
  deriving DecidableEq, Repr

/-- Elements of a JSON array of strings, after the opening bracket and
first non-whitespace character (fuelled loop; fuel bounds the input
length, so it never runs out on real inputs). -/
def parseJArrayAux : Nat → List String → List Char → Option (List String × List Char)
  | 0, _, _ => none
  | fuel + 1, acc, cs =>
      match parseJString (skipWs cs) with
      | none => none
      | some (s, rest) =>
          match skipWs rest with
          | ',' :: rest2 => parseJArrayAux fuel (s :: acc) rest2
          | ']' :: rest2 => some ((s :: acc).reverse, rest2)
          | _ => none

/-- One JSON value. -/
def parseJValue (cs : List Char) : Option (JVal × List Char) :=
  match skipWs cs with
  | '"' :: rest =>
      match parseJStringAux [] rest with
      | none => none
      | some (s, rest2) => some (JVal.str s, rest2)
  | '[' :: rest =>
      match skipWs rest with
      | ']' :: rest2 => some (JVal.arr [], rest2)
      | _ =>
          match parseJArrayAux (rest.length + 1) [] rest with
          | none => none
          | some (xs, rest2) => some (JVal.arr xs, rest2)
  | 't' :: 'r' :: 'u' :: 'e' :: rest => some (JVal.boolean true, rest)
  | 'f' :: 'a' :: 'l' :: 's' :: 'e' :: rest => some (JVal.boolean false, rest)
  | 'n' :: 'u' :: 'l' :: 'l' :: rest => some (JVal.null, rest)
  | c :: rest =>
      if c = '-' || c.isDigit then some (JVal.num, (c :: rest).dropWhile isNumChar)
      else none
  | [] => none

/-- The record the Go code unmarshals the payload into (the anonymous
`llmResponse` struct); absent fields keep Go zero values. -/
structure LLMResponse where
  question : String := ""
  type : String := ""
  options : List String := []
  correctAnswer : String := ""
  explanation : String := ""
  difficulty : String := ""
  deriving DecidableEq, Repr

/-- Store a decoded member into the record.  Keys are matched
case-insensitively (as `encoding/json` does), unknown keys are ignored,
`null` leaves the field at its zero value, and a value of the wrong
shape is a decoding error. -/
def assignField (r : LLMResponse) (key : String) (v : JVal) : Option LLMResponse :=
  let k := strLower key
  if k = "question" then
    match v with
    | JVal.str s => some { r with question := s }
    | JVal.null => some r
    | _ => none
  else if k = "type" then
    match v with
    | JVal.str s => some { r with type := s }
    | JVal.null => some r
    | _ => none
  else if k = "options" then
    match v with
    | JVal.arr xs => some { r with options := xs }
    | JVal.null => some r
    | _ => none
  else if k = "correctanswer" then
    match v with
    | JVal.str s => some { r with correctAnswer := s }
    | JVal.null => some r
    | _ => none
  else if k = "explanation" then
    match v with
    | JVal.str s => some { r with explanation := s }
    | JVal.null => some r
    | _ => none
  else if k = "difficulty" then
    match v with
    | JVal.str s => some { r with difficulty := s }
    | JVal.null => some r
    | _ => none
  else some r

/-- The member loop of the object decoder (fuelled; fuel bounds the
input length). -/
def parseMembersLoop : Nat → LLMResponse → List Char → Option (LLMResponse × List Char)
  | 0, _, _ => none
  | fuel + 1, r, cs =>
      match parseJString (skipWs cs) with
      | none => none
      | some (key, rest1) =>
          match skipWs rest1 with
          | ':' :: rest2 =>
              match parseJValue rest2 with
              | none => none
              | some (v, rest3) =>
                  match assignField r key v with
                  | none => none
                  | some r2 =>
                      match skipWs rest3 with
                      | ',' :: rest4 => parseMembersLoop fuel r2 rest4
                      | '\x7d' :: rest4 => some (r2, rest4)
                      | _ => none
          | _ => none

/-- Model of `json.Unmarshal` into the `llmResponse` struct, restricted
to the value shapes that struct can receive (a top-level object whose
members are strings, arrays of strings, or skippable scalars). -/
def jsonDecode (s : String) : Option LLMResponse :=
  match skipWs s.data with
  | '\x7b' :: rest =>
      match skipWs rest with
      | '\x7d' :: rest2 => if (skipWs rest2).isEmpty then some {} else none
      | _ =>
          match parseMembersLoop (rest.length + 1) {} rest with
          | none => none
          | some (r, rest2) => if (skipWs rest2).isEmpty then some r else none
  | _ => none

/-- Index of the first occurrence of a character (`strings.Index`). -/
def firstIdx : List Char → Char → Option Nat
  | [], _ => none
  | c :: rest, t => if c = t then some 0 else (firstIdx rest t).map (· + 1)

/-- Index of the last occurrence of a character (`strings.LastIndex`). -/
def lastIdx : List Char → Char → Option Nat
  | [], _ => none
  | c :: rest, t =>
      match lastIdx rest t with
      | some i => some (i + 1)
      | none => if c = t then some 0 else none

/-- The payload-delimiting step of `parseLLMResponse`: take the substring
from the first `{` to the last `}` inclusive.  When either brace is
absent the Go code returns the `no valid JSON found in response` error;
when the first `{` starts more than one position past the last `}` the
Go slice expression `response[jsonStart:jsonEnd]` has its lower bound
above its upper bound and panics at runtime. -/
def delimitPayload (response : String) : Res String :=
  let cs := response.data
  match firstIdx cs '\x7b', lastIdx cs '\x7d' with
  | none, _ => Res.fails "no valid JSON found in response"
  | some _, none => Res.fails "no valid JSON found in response"
  | some jsonStart, some lastBrace =>
      if jsonStart > lastBrace + 1 then Res.panics
      else Res.ok (String.mk ((cs.drop jsonStart).take (lastBrace + 1 - jsonStart)))

/-- The steps of `parseLLMResponse` after `json.Unmarshal`: a decoding
failure is the `failed to parse JSON` error, an empty `question` the
`question field is required` error, and otherwise the record is built
with the freshly minted id and the caller-supplied id list. -/
def parseDecoded (noteIds : List Int) (now : Int) : Option LLMResponse → Res QuestionData
  | none => Res.fails "failed to parse JSON"
  | some r =>
      if r.question = "" then Res.fails "question field is required"
      else
        Res.ok
          { id := "q_llm_" ++ toString now
            text := r.question
            type := r.type
            options := r.options
            correctAnswer := r.correctAnswer
            explanation := r.explanation
            difficulty := r.difficulty
            basedOnNotes := noteIds }

/-- The steps of `parseLLMResponse` after the payload has been
delimited: panics and delimiting errors propagate, otherwise the payload
is decoded. -/
def parseDelim (noteIds : List Int) (now : Int) : Res String → Res QuestionData
  | Res.panics => Res.panics
  | Res.fails e => Res.fails e
  | Res.ok payload => parseDecoded noteIds now (jsonDecode payload)

/-- Embedding of `QuizService.parseLLMResponse`; `now` is the
Unix-seconds clock reading used for the generated id. -/
def parseLLMResponse (response : String) (noteIds : List Int) (now : Int) :
    Res QuestionData :=
  parseDelim noteIds now (delimitPayload response)

lemma prefixed_id_ne_empty (s : String) : ("q_llm_" ++ s) ≠ "" := by
  intro h
  have hlen := congrArg String.length h
  rw [String.length_append] at hlen
  have h6 : ("q_llm_" : String).length = 6 := rfl
  have h0 : ("" : String).length = 0 := rfl
  rw [h6, h0] at hlen
  omega

/-- C1: the claim says every response with no `\x7b` before a `\x7d` yields
the `no valid JSON found in response` error and never crashes.  The code
does return that error when either brace is missing, but when both occur
with the last `\x7d` more than one position before the first `\x7b` the
slice expression `response[jsonStart:jsonEnd]` panics at runtime:
evaluating the embedding at the failing input `"\x7d \x7b"` produces the
panic outcome, not the error. -/
theorem parseLLMResponse_panics_on_reversed_braces :
    parseLLMResponse "\x7d \x7b" [] 0 = Res.panics ∧
    parseLLMResponse "not json at all" [] 0 =
      Res.fails "no valid JSON found in response" := by
  exact ⟨by decide, by decide⟩

/-- C8: whenever the delimited payload decodes but its `question` field
is empty (in particular when the field is absent), the extractor fails
with the `question field is required` error and returns no record. -/
theorem parseLLMResponse_missing_question (response : String) (noteIds : List Int)
    (now : Int) (payload : String) (r : LLMResponse)
    (hd : delimitPayload response = Res.ok payload)
    (hj : jsonDecode payload = some r) (hq : r.question = "") :
    parseLLMResponse response noteIds now = Res.fails "question field is required" := by
  unfold parseLLMResponse
  rw [hd]
  simp only [parseDelim]
  rw [hj]
  simp only [parseDecoded]
  rw [if_pos hq]

theorem parseLLMResponse_missing_question_witness :
    parseLLMResponse "\x7b\"type\":\"essay\"\x7d" [] 0 =
      Res.fails "question field is required" :=
  parseLLMResponse_missing_question "\x7b\"type\":\"essay\"\x7d" [] 0
    "\x7b\"type\":\"essay\"\x7d" { type := "essay" } (by decide) (by decide) rfl

/-- C4: on the round-trip input of the spec the extractor returns the record
with the decoded text, type and difficulty, a non-empty generated id and
the id list of the caller verbatim; and in general every response whose
delimited payload decodes with a non-empty `question` succeeds, the
`type` and `difficulty` strings passing through uninspected (no
enumeration check can reject them). -/
theorem parseLLMResponse_roundtrip_and_passthrough (noteIds : List Int) (now : Int) :
    parseLLMResponse
        "noise \x7b\"question\":\"Q?\",\"type\":\"essay\",\"difficulty\":\"hard\"\x7d trailing"
        noteIds now =
      Res.ok { id := "q_llm_" ++ toString now, text := "Q?", type := "essay",
               options := [], correctAnswer := "", explanation := "",
               difficulty := "hard", basedOnNotes := noteIds } ∧
    ("q_llm_" ++ toString now) ≠ "" ∧
    (∀ (response payload : String) (r : LLMResponse),
      delimitPayload response = Res.ok payload → jsonDecode payload = some r →
      r.question ≠ "" →
      parseLLMResponse response noteIds now =
        Res.ok { id := "q_llm_" ++ toString now, text := r.question, type := r.type,
                 options := r.options, correctAnswer := r.correctAnswer,
                 explanation := r.explanation, difficulty := r.difficulty,
                 basedOnNotes := noteIds }) := by
  refine ⟨?_, prefixed_id_ne_empty (toString now), ?_⟩
  · have hd : delimitPayload
        "noise \x7b\"question\":\"Q?\",\"type\":\"essay\",\"difficulty\":\"hard\"\x7d trailing" =
        Res.ok "\x7b\"question\":\"Q?\",\"type\":\"essay\",\"difficulty\":\"hard\"\x7d" := by
      decide
    have hj : jsonDecode "\x7b\"question\":\"Q?\",\"type\":\"essay\",\"difficulty\":\"hard\"\x7d" =
        some { question := "Q?", type := "essay", difficulty := "hard" } := by
      decide
    unfold parseLLMResponse
    rw [hd]
    simp only [parseDelim]
    rw [hj]
    simp only [parseDecoded]
    rw [if_neg (by decide)]
  · intro response payload r hd hj hq
    unfold parseLLMResponse
    rw [hd]
    simp only [parseDelim]
    rw [hj]
    simp only [parseDecoded]
    rw [if_neg hq]

theorem parseLLMResponse_roundtrip_and_passthrough_witness :
    parseLLMResponse
        "noise \x7b\"question\":\"Q?\",\"type\":\"essay\",\"difficulty\":\"hard\"\x7d trailing"
        [4, 7] 12 =
      Res.ok { id := "q_llm_12", text := "Q?", type := "essay", options := [],
               correctAnswer := "", explanation := "", difficulty := "hard",
               basedOnNotes := [4, 7] } ∧
    parseLLMResponse "\x7b\"question\":\"R?\",\"type\":\"zebra\",\"difficulty\":\"impossible\"\x7d"
        [4, 7] 12 =
      Res.ok { id := "q_llm_12", text := "R?", type := "zebra", options := [],
               correctAnswer := "", explanation := "", difficulty := "impossible",
               basedOnNotes := [4, 7] } := by
  have h := parseLLMResponse_roundtrip_and_passthrough [4, 7] 12
  refine ⟨h.1.trans (by decide), ?_⟩
  have h2 := h.2.2 "\x7b\"question\":\"R?\",\"type\":\"zebra\",\"difficulty\":\"impossible\"\x7d"
    "\x7b\"question\":\"R?\",\"type\":\"zebra\",\"difficulty\":\"impossible\"\x7d"
    { question := "R?", type := "zebra", difficulty := "impossible" }
    (by decide) (by decide) (by decide)
  exact h2.trans (by decide)

/-- C3 counterexample: two distinct successful invocations of the
extractor that observe the same Unix-seconds clock value produce the
same id `q_llm_7`, so ids are not unique per call. -/
theorem generated_id_collision_same_second :
    parseLLMResponse "\x7b\"question\":\"A?\"\x7d" [] 7 =
      Res.ok { id := "q_llm_7", text := "A?", type := "", options := [],
               correctAnswer := "", explanation := "", difficulty := "",
               basedOnNotes := [] } ∧
    parseLLMResponse "\x7b\"question\":\"B?\"\x7d" [5] 7 =
      Res.ok { id := "q_llm_7", text := "B?", type := "", options := [],
               correctAnswer := "", explanation := "", difficulty := "",
               basedOnNotes := [5] } ∧
    ("\x7b\"question\":\"A?\"\x7d" : String) ≠ "\x7b\"question\":\"B?\"\x7d" := by
  exact ⟨by decide, by decide, by decide⟩

/-- C3 amended: every successful extraction returns a non-empty id equal
to the fixed prefix `q_llm_` followed by the decimal Unix-seconds
timestamp of the call; the timestamp has second resolution, so calls in
the same clock second share an id. -/
theorem generated_id_shape (response : String) (noteIds : List Int) (now : Int)
    (q : QuestionData) (h : parseLLMResponse response noteIds now = Res.ok q) :
    q.id = "q_llm_" ++ toString now ∧ q.id ≠ "" := by
  unfold parseLLMResponse at h
  cases hdel : delimitPayload response with
  | panics =>
      rw [hdel] at h
      simp only [parseDelim] at h
      exact Res.noConfusion h
  | fails e =>
      rw [hdel] at h
      simp only [parseDelim] at h
      exact Res.noConfusion h
  | ok payload =>
      rw [hdel] at h
      simp only [parseDelim] at h
      cases hj : jsonDecode payload with
      | none =>
          rw [hj] at h
          simp only [parseDecoded] at h
          exact Res.noConfusion h
      | some r =>
          rw [hj] at h
          simp only [parseDecoded] at h
          by_cases hq : r.question = ""
          · rw [if_pos hq] at h
            exact Res.noConfusion h
          · rw [if_neg hq] at h
            have h2 := Res.ok.inj h
            rw [← h2]
            exact ⟨rfl, prefixed_id_ne_empty (toString now)⟩

theorem generated_id_shape_witness :
    ({ id := "q_llm_3", text := "A?", type := "", options := [],
       correctAnswer := "", explanation := "", difficulty := "",
       basedOnNotes := [] } : QuestionData).id = "q_llm_" ++ toString (3 : Int) ∧
    ({ id := "q_llm_3", text := "A?", type := "", options := [],
       correctAnswer := "", explanation := "", difficulty := "",
       basedOnNotes := [] } : QuestionData).id ≠ "" :=
  generated_id_shape "\x7b\"question\":\"A?\"\x7d" [] 3 _ (by decide)

/-- The fixed system instruction (`SYSTEM_PROMPT`). -/
def SYSTEM_PROMPT : String :=
  "You are a quiz generator AI. Create educational quiz questions based on the provided study notes. Generate questions that test comprehension, application, and analysis of the material. Respond with valid JSON in this exact format:\n\x7b\n  \"question\": \"The question text here\",\n  \"type\": \"multiple-choice\",\n  \"options\": [\"A) Option 1\", \"B) Option 2\", \"C) Option 3\", \"D) Option 4\"],\n  \"correctAnswer\": \"A\",\n  \"explanation\": \"Explanation of why this is correct\",\n  \"difficulty\": \"medium\"\n\x7d\n\nFor essay questions, omit the options and correctAnswer fields. Valid difficulty levels are: easy, medium, hard. Valid types are: multiple-choice, essay, true-false."

/-- The user prompt template (`USER_PROMPT_TEMPLATE`) instantiated with
the grounding text and inferred parameters. -/
def userPrompt (notesContent difficulty questionType : String) : String :=
  "Based on these study notes: \n\n" ++ notesContent ++
    "\n\nGenerate a quiz question. Make it " ++ difficulty ++
    " difficulty and format it as " ++ questionType ++
    ". The question should test understanding of the key concepts from the notes."

/-- The fixed introductory label of the produced assistant turn. -/
def assistantIntro : String := "Here\x27s a quiz question based on your notes:"

/-- The step of `generateQuizWithLLM` after `parseLLMResponse`: a parse
failure is wrapped, a success becomes the assistant message carrying the
question record. -/
def parsedToMessage : Res QuestionData → Res Message
  | Res.panics => Res.panics
  | Res.fails e => Res.fails ("failed to parse LLM response: " ++ e)
  | Res.ok q => Res.ok ⟨"assistant", assistantIntro, some q⟩

/-- The step of `generateQuizWithLLM` after the model call: a provider
error is wrapped, a completion is parsed. -/
def afterLLMCall (noteIds : List Int) (now : Int) :
    Except String String → Res Message
  | Except.error e => Res.fails ("LLM generation failed: " ++ e)
  | Except.ok completion => parsedToMessage (parseLLMResponse completion noteIds now)

/-- Embedding of `QuizService.generateQuizWithLLM`: builds the prompt,
invokes the model capability `llm` and processes the completion. -/
def generateQuizWithLLM (llm : String → Except String String) (now : Int)
    (notesContent difficulty questionType : String) (noteIds : List Int) : Res Message :=
  afterLLMCall noteIds now
    (llm (SYSTEM_PROMPT ++ "\n\n" ++ userPrompt notesContent difficulty questionType))

/-- The step of `GenerateQuiz` after content aggregation: an aggregation
failure is wrapped, otherwise parameters are inferred from the last user
turn and the model stage runs. -/
def notesToMessage (llm : String → Except String String) (now : Int)
    (last : Message) (noteIds : List Int) : Res String → Res Message
  | Res.panics => Res.panics
  | Res.fails e => Res.fails ("failed to retrieve notes: " ++ e)
  | Res.ok content =>
      generateQuizWithLLM llm now content (extractDifficulty last.Content)
        (extractQuestionType last.Content) noteIds

/-- The body of `QuizService.GenerateQuiz` expressed over the optional
last turn: an absent last turn is the empty-conversation error, a last
turn with role other than `user` is rejected, and otherwise content
aggregation and generation run. -/
def serviceWithLast (repo : NoteRepo) (llm : String → Except String String)
    (now : Int) (noteIds : List Int) : Option Message → Res Message
  | none => Res.fails "conversation cannot be empty"
  | some last =>
      if last.Role ≠ "user" then Res.fails "last message must be from user"
      else notesToMessage llm now last noteIds (getNotesContent repo noteIds)

/-- Embedding of `QuizService.GenerateQuiz`: validates the conversation
shape, aggregates content and generates the assistant message. -/
def serviceGenerateQuiz (repo : NoteRepo) (llm : String → Except String String)
    (now : Int) (conv : List Message) (noteIds : List Int) : Res Message :=
  serviceWithLast repo llm now noteIds conv.getLast?

/-- The body of `QuizHandler.validateQuizRequest` expressed over the
optional last turn. -/
def validateWithLast : Option Message → Except String Unit
  | none => Except.error "conversation cannot be empty"
  | some last =>
      if last.Role ≠ "user" then Except.error "last message must be from user"
      else if last.Content = "" then Except.error "user message cannot be empty"
      else Except.ok ()

/-- Embedding of `QuizHandler.validateQuizRequest`: the conversation must
be non-empty, its last turn must have role `user`, and the content of that turn must differ from the empty string (no whitespace trimming). -/
def validateQuizRequest (conv : List Message) : Except String Unit :=
  validateWithLast conv.getLast?

/-- The step of the handler after the service call: a service failure is
wrapped into the error response, a success appends the new assistant
message to the conversation of the request. -/
def serviceToResponse (conv : List Message) : Res Message → Res (List Message)
  | Res.panics => Res.panics
  | Res.fails e => Res.fails ("Failed to generate quiz: " ++ e)
  | Res.ok m => Res.ok (conv ++ [m])

/-- Embedding of `QuizHandler.GenerateQuiz`: validates the request, runs
the service and returns the updated conversation. -/
def handleGenerateQuiz (repo : NoteRepo) (llm : String → Except String String)
    (now : Int) (conv : List Message) (noteIds : List Int) : Res (List Message) :=
  match validateQuizRequest conv with
  | Except.error e => Res.fails e
  | Except.ok _ => serviceToResponse conv (serviceGenerateQuiz repo llm now conv noteIds)

/-- The three invalidity conditions actually checked by the code,
expressed over the optional last turn. -/
def invalidLast : Option Message → Bool
  | none => true
  | some last => last.Role != "user" || last.Content == ""

/-- The three invalidity conditions actually checked by the code: empty
conversation, last role not `user`, last content the empty string. -/
def invalidConversation (conv : List Message) : Bool :=
  invalidLast conv.getLast?

/-- The error messages belonging to the `InvalidConversation` class. -/
def isInvalidConversationMsg (m : String) : Bool :=
  m == "conversation cannot be empty" || m == "last message must be from user" ||
    m == "user message cannot be empty"

/-- A model stub returning a fixed well-formed completion. -/
def stubLLM : String → Except String String :=
  fun _ => Except.ok "\x7b\"question\":\"Q?\"\x7d"

/-- C2 counterexample: a conversation whose last user turn consists of a
single space has content that is empty after trimming, yet the request
passes validation and the whole generation succeeds, because the code
compares the untrimmed content against the empty string. -/
theorem whitespace_content_passes_validation :
    (" " : String).data.all (fun c => c.isWhitespace) = true ∧
    handleGenerateQuiz demoRepo stubLLM 0 [⟨"user", " ", none⟩] [1] =
      Res.ok [⟨"user", " ", none⟩,
        ⟨"assistant", assistantIntro,
          some { id := "q_llm_0", text := "Q?", type := "", options := [],
                 correctAnswer := "", explanation := "", difficulty := "",
                 basedOnNotes := [1] }⟩] := by
  exact ⟨by decide, by decide⟩

/-- C2 amended: generation fails with an `InvalidConversation` error
exactly when the conversation is empty, the role of the last turn is not
`user`, or the content of the last turn is the empty string (untrimmed); the
failure happens for every repository and model collaborator, so no note
is fetched and no model call is observed; conversations violating none
of the three conditions pass this validation stage. -/
theorem conversation_validation_characterization (repo : NoteRepo)
    (llm : String → Except String String) (now : Int)
    (conv : List Message) (noteIds : List Int) :
    (invalidConversation conv = true →
      ∃ m, handleGenerateQuiz repo llm now conv noteIds = Res.fails m ∧
        isInvalidConversationMsg m = true) ∧
    (invalidConversation conv = false → validateQuizRequest conv = Except.ok ()) := by
  constructor
  · intro hinv
    have hinv2 : invalidLast conv.getLast? = true := hinv
    unfold handleGenerateQuiz validateQuizRequest
    cases hlast : conv.getLast? with
    | none =>
        exact ⟨"conversation cannot be empty", rfl, by decide⟩
    | some last =>
        rw [hlast] at hinv2
        simp only [invalidLast] at hinv2
        simp only [validateWithLast]
        by_cases hrole : last.Role = "user"
        · have hrole2 : ¬ (last.Role ≠ "user") := fun hne => hne hrole
          rw [if_neg hrole2]
          have hcont : last.Content = "" := by
            simp [hrole] at hinv2
            exact hinv2
          rw [if_pos hcont]
          exact ⟨"user message cannot be empty", rfl, by decide⟩
        · rw [if_pos hrole]
          exact ⟨"last message must be from user", rfl, by decide⟩
  · intro hval
    have hval2 : invalidLast conv.getLast? = false := hval
    unfold validateQuizRequest
    cases hlast : conv.getLast? with
    | none =>
        rw [hlast] at hval2
        simp only [invalidLast] at hval2
        exact absurd hval2 (by decide)
    | some last =>
        rw [hlast] at hval2
        simp only [invalidLast, Bool.or_eq_false_iff, bne_eq_false_iff_eq,
          beq_eq_false_iff_ne] at hval2
        simp only [validateWithLast]
        rw [if_neg (fun hne => hne hval2.1), if_neg hval2.2]

theorem conversation_validation_characterization_witness :
    (∃ m, handleGenerateQuiz demoRepo stubLLM 0 [⟨"assistant", "hi", none⟩] [1] =
      Res.fails m ∧ isInvalidConversationMsg m = true) ∧
    validateQuizRequest [⟨"user", "hi", none⟩] = Except.ok () := by
  have h1 := conversation_validation_characterization demoRepo stubLLM 0
    [⟨"assistant", "hi", none⟩] [1]
  have h2 := conversation_validation_characterization demoRepo stubLLM 0
    [⟨"user", "hi", none⟩] [1]
  exact ⟨h1.1 (by decide), h2.2 (by decide)⟩

lemma parsedToMessage_ok_shape (p : Res QuestionData) (m : Message)
    (h : parsedToMessage p = Res.ok m) :
    ∃ q : QuestionData, m = ⟨"assistant", assistantIntro, some q⟩ := by
  cases p with
  | panics => exact Res.noConfusion h
  | fails e => simp only [parsedToMessage] at h; exact Res.noConfusion h
  | ok q => simp only [parsedToMessage] at h; exact ⟨q, (Res.ok.inj h).symm⟩

lemma generateQuizWithLLM_ok_shape (llm : String → Except String String)
    (now : Int) (content difficulty questionType : String) (noteIds : List Int)
    (m : Message)
    (h : generateQuizWithLLM llm now content difficulty questionType noteIds = Res.ok m) :
    ∃ q : QuestionData, m = ⟨"assistant", assistantIntro, some q⟩ := by
  unfold generateQuizWithLLM at h
  cases hc : llm (SYSTEM_PROMPT ++ "\n\n" ++ userPrompt content difficulty questionType) with
  | error e =>
      rw [hc] at h
      simp only [afterLLMCall] at h
      exact Res.noConfusion h
  | ok completion =>
      rw [hc] at h
      simp only [afterLLMCall] at h
      exact parsedToMessage_ok_shape _ _ h

lemma serviceGenerateQuiz_ok_shape (repo : NoteRepo)
    (llm : String → Except String String) (now : Int) (conv : List Message)
    (noteIds : List Int) (m : Message)
    (h : serviceGenerateQuiz repo llm now conv noteIds = Res.ok m) :
    ∃ q : QuestionData, m = ⟨"assistant", assistantIntro, some q⟩ := by
  unfold serviceGenerateQuiz at h
  cases hlast : conv.getLast? with
  | none =>
      rw [hlast] at h
      simp only [serviceWithLast] at h
      exact Res.noConfusion h
  | some last =>
      rw [hlast] at h
      simp only [serviceWithLast] at h
      by_cases hrole : last.Role ≠ "user"
      · rw [if_pos hrole] at h
        exact Res.noConfusion h
      · rw [if_neg hrole] at h
        cases hg : getNotesContent repo noteIds with
        | panics =>
            rw [hg] at h
            simp only [notesToMessage] at h
            exact Res.noConfusion h
        | fails e =>
            rw [hg] at h
            simp only [notesToMessage] at h
            exact Res.noConfusion h
        | ok content =>
            rw [hg] at h
            simp only [notesToMessage] at h
            exact generateQuizWithLLM_ok_shape _ _ _ _ _ _ _ h

/-- C7: every successful run of the handler returns the input
conversation with exactly one appended turn, whose role is `assistant`,
whose content is the fixed introductory label, and which carries a
question record; the input turns are returned unchanged.  A failing run
returns only an error outcome, so no partial turn exists. -/
theorem handler_appends_exactly_one_assistant_turn (repo : NoteRepo)
    (llm : String → Except String String) (now : Int) (conv : List Message)
    (noteIds : List Int) (out : List Message)
    (h : handleGenerateQuiz repo llm now conv noteIds = Res.ok out) :
    ∃ q : QuestionData, out = conv ++ [⟨"assistant", assistantIntro, some q⟩] := by
  unfold handleGenerateQuiz at h
  cases hv : validateQuizRequest conv with
  | error e =>
      rw [hv] at h
      exact Res.noConfusion h
  | ok u =>
      rw [hv] at h
      have h2 : serviceToResponse conv (serviceGenerateQuiz repo llm now conv noteIds) =
          Res.ok out := h
      cases hs : serviceGenerateQuiz repo llm now conv noteIds with
      | panics =>
          rw [hs] at h2
          simp only [serviceToResponse] at h2
          exact Res.noConfusion h2
      | fails e =>
          rw [hs] at h2
          simp only [serviceToResponse] at h2
          exact Res.noConfusion h2
      | ok m =>
          rw [hs] at h2
          simp only [serviceToResponse] at h2
          obtain ⟨q, hq⟩ := serviceGenerateQuiz_ok_shape repo llm now conv noteIds m hs
          refine ⟨q, ?_⟩
          rw [← Res.ok.inj h2, hq]

theorem handler_appends_exactly_one_assistant_turn_witness :
    ∃ q : QuestionData,
      ([⟨"user", "quiz me", none⟩,
        ⟨"assistant", assistantIntro,
          some { id := "q_llm_0", text := "Q?", type := "", options := [],
                 correctAnswer := "", explanation := "", difficulty := "",
                 basedOnNotes := [1] }⟩] : List Message) =
        [⟨"user", "quiz me", none⟩] ++ [⟨"assistant", assistantIntro, some q⟩] :=
  handler_appends_exactly_one_assistant_turn demoRepo stubLLM 0
    [⟨"user", "quiz me", none⟩] [1] _ (by decide)
